import Mathlib

/-
Verification of the report-generation and insight pipeline.

Shallow embedding of the core functions of the repository:
  app/core/kpi/comparator.py        (KPIComparator)
  app/core/insights/selector.py     (InsightSelector)
  app/core/insights/miners/profit_margin.py (ProfitMarginMiner)
  app/core/recommendations/generator.py (RecommendationsGenerator)
  app/services/report_service.py    (ReportService._extract_insights)
  app/utils/date_utils.py           (calculate_period_dates)
  app/utils/idempotency.py          (IdempotencyManager)
  app/utils/rate_limiter.py         (RateLimiter)

Python Decimal / float values are modelled as rationals (ℚ); Python's
exact decimal / binary arithmetic on the numbers involved in the claims
coincides with rational arithmetic for every operation performed here.
Dates are modelled by a proleptic-Gregorian calendar structure mirroring
Python's `datetime.date` (year ≥ 1), with `timedelta` arithmetic as
iterated predecessor and `toordinal`-style day numbering.
-/

namespace Reporting

/-! ## Domain model (app/domain/models.py, app/domain/enums.py) -/

/-- InsightType enum from app/domain/enums.py. -/
inductive InsightType where
  | stock_alert
  | churn_risk
  | seasonality
  | profit_margin
  | expense_anomaly
  deriving DecidableEq

/-- InsightModel from app/domain/models.py.  The `metadata` dict is not
read by any of the verified functions and is omitted from the embedding. -/
structure InsightModel where
  type : InsightType
  title : String
  description : String
  priority : ℕ
  financial_impact : Option ℚ
  actionable : Bool
  deriving DecidableEq

/-- KPIData from app/domain/models.py (the fields read by the verified code). -/
structure KPIData where
  total_revenue : ℚ
  total_sales : ℤ
  new_customers : ℤ
  returning_customers : ℤ
  stock_alerts_count : ℤ
  total_expenses : ℚ
  net_result : ℚ
  deriving DecidableEq

/-- KPIComparison from app/domain/models.py. -/
structure KPIComparison where
  revenue_variation : ℚ
  sales_variation : ℚ
  returning_customers_variation : ℤ
  expenses_variation : ℚ
  deriving DecidableEq

/-! ## C1 — KPIComparator._calculate_variation_percentage
    (app/core/kpi/comparator.py, lines 69–94) -/

/-- Embeds `KPIComparator._calculate_variation_percentage`:
if previous == 0 return 100.0 if current > 0 else 0.0;
otherwise ((current - previous) / previous) * 100. -/
def calculate_variation_percentage (current previous : ℚ) : ℚ :=
  if previous = 0 then
    if current > 0 then 100 else 0
  else
    ((current - previous) / previous) * 100

/-! ## C2 — ReportService._extract_insights
    (app/services/report_service.py, lines 224–287) -/

/-- Outcome of one `miner.mine(...)` invocation: either a normal return
(`Except.ok`, possibly `none` = Python `None`) or a raised exception
(`Except.error`). -/
abbrev MinerResult := Except Unit (Option InsightModel)

/-- The insight a miner run contributes: `some i` exactly when the miner
returned (did not raise) and returned a non-null insight. -/
def minedInsight : MinerResult → Option InsightModel
  | .ok (some i) => some i
  | .ok none => none
  | .error _ => none

/-- Embeds the loop body of `ReportService._extract_insights`: iterate over
the miner results in order; on a normal non-null return append the insight;
on a null return or an exception continue with the next miner. -/
def extract_insights_loop : List InsightModel → List MinerResult → List InsightModel
  | acc, [] => acc
  | acc, r :: rs =>
    match r with
    | .ok (some i) => extract_insights_loop (acc ++ [i]) rs
    | .ok none => extract_insights_loop acc rs
    | .error _ => extract_insights_loop acc rs

/-- Embeds `ReportService._extract_insights` (insights = []; for miner in
miners: try ... append ... except: continue; return insights). -/
def extract_insights (rs : List MinerResult) : List InsightModel :=
  extract_insights_loop [] rs

/-! ## C4 — ProfitMarginMiner.mine
    (app/core/insights/miners/profit_margin.py, lines 48–151) -/

/-- Margin expression used by `ProfitMarginMiner.mine`:
`profit_margin = float((net_result / total_revenue) * 100)` with
`net_result = total_revenue - total_expenses`. -/
def profit_margin (total_revenue total_expenses : ℚ) : ℚ :=
  ((total_revenue - total_expenses) / total_revenue) * 100

/-- Embeds `ProfitMarginMiner.mine` as a function of the revenue and expense
totals it works from (whether they come from the context dict or from the
repositories, the subsequent logic only reads these two values, with
`net_result = total_revenue - total_expenses`).  The numeric interpolations
inside the description strings are abstracted to the fixed surrounding text;
no claim reads `description`.  The `metadata` dict is omitted (see
`InsightModel`). -/
def profitMarginMine (total_revenue total_expenses : ℚ) : Option InsightModel :=
  let net_result := total_revenue - total_expenses
  if total_revenue = 0 then
    none
  else if profit_margin total_revenue total_expenses < 0 then
    some
      { type := .profit_margin
        title := "🚨 Résultat Déficitaire"
        description := "Vos dépenses dépassent votre CA. Réduisez d'urgence vos charges."
        priority := 5
        financial_impact := some |net_result|
        actionable := true }
  else if profit_margin total_revenue total_expenses < 10 then
    some
      { type := .profit_margin
        title := "⚠️ Rentabilité Faible"
        description := "Votre marge bénéficiaire est faible. Optimisez vos dépenses ou augmentez vos prix pour améliorer la rentabilité."
        priority := 4
        financial_impact := none
        actionable := true }
  else if profit_margin total_revenue total_expenses > 40 then
    some
      { type := .profit_margin
        title := "🎉 Excellente Rentabilité"
        description := "Félicitations ! Profitez de cette santé financière pour investir dans la croissance."
        priority := 2
        financial_impact := none
        actionable := true }
  else
    none

/-! ## C3 / C6 — InsightSelector
    (app/core/insights/selector.py, lines 24–146) -/

/-- InsightSelector's state: the three weights after the constructor's
renormalization. -/
structure InsightSelector where
  priority_weight : ℚ
  financial_impact_weight : ℚ
  actionable_weight : ℚ
  deriving DecidableEq

/-- Embeds `InsightSelector.__init__`: the given weights are renormalized
so that they total 100. -/
def mkInsightSelector (priority_weight financial_impact_weight actionable_weight : ℚ) :
    InsightSelector :=
  let total_weight := priority_weight + financial_impact_weight + actionable_weight
  { priority_weight := priority_weight / total_weight * 100
    financial_impact_weight := financial_impact_weight / total_weight * 100
    actionable_weight := actionable_weight / total_weight * 100 }

/-- The default selector (weights 40 / 30 / 30). -/
def defaultSelector : InsightSelector := mkInsightSelector 40 30 30

/-- Embeds the financial-impact component of `calculate_score`.  Python's
`if insight.financial_impact:` is falsy for both `None` and `Decimal("0")`,
hence the explicit zero test on the `some` branch. -/
def financial_component (s : InsightSelector) : Option ℚ → ℚ
  | none => 0
  | some impact =>
    if impact = 0 then 0
    else min (impact / 1000000) 1 * s.financial_impact_weight

/-- Embeds `InsightSelector.calculate_score`:
(priority/5)·wP + min(impact/1M, 1)·wF + (actionable ? 1 : 0)·wA. -/
def calculate_score (s : InsightSelector) (i : InsightModel) : ℚ :=
  ((i.priority : ℚ) / 5) * s.priority_weight
    + financial_component s i.financial_impact
    + (if i.actionable then (1 : ℚ) else 0) * s.actionable_weight

/-- The descending-score order used by `select_top_insights`
(`sort(key=score, reverse=True)`). -/
def scoreGE (s : InsightSelector) (a b : InsightModel) : Prop :=
  calculate_score s b ≤ calculate_score s a

instance (s : InsightSelector) : DecidableRel (scoreGE s) :=
  fun a b => inferInstanceAs (Decidable (calculate_score s b ≤ calculate_score s a))

/-- Embeds `InsightSelector.select_top_insights`: return [] on an empty
input, otherwise stable-sort by descending score and take the first
`max_count`.  Python's `list.sort` is a stable sort; `List.insertionSort`
with the reflexive descending-score relation is the same stable sort. -/
def select_top_insights (s : InsightSelector) (insights : List InsightModel)
    (max_count : ℕ) : List InsightModel :=
  match insights with
  | [] => []
  | _ => (insights.insertionSort (scoreGE s)).take max_count

/-! ## C7 — RecommendationsGenerator._generate_fallback
    (app/core/recommendations/generator.py, lines 91–117) -/

/-- Bullet appended when `kpis.net_result < 0`. -/
def fallbackBullet1 : String :=
  "- Réduisez immédiatement vos dépenses de 15 à 20% en ciblant les fournisseurs les plus coûteux."

/-- Bullet appended when `comp.revenue_variation < -10`. -/
def fallbackBullet2 : String :=
  "- Lancer une promotion clients existants cette semaine peut compenser la baisse de ventes."

/-- Bullet appended when `kpis.returning_customers < kpis.new_customers`. -/
def fallbackBullet3 : String :=
  "- Mettez en place une offre fidélité (ex : -10% sur le 3e achat) pour augmenter les visites répétées."

/-- Generic bullet appended when no rule fired. -/
def fallbackBullet4 : String :=
  "- Continuez vos efforts actuels et surveillez vos indicateurs chaque semaine."

/-- Embeds the bullet-list construction of
`RecommendationsGenerator._generate_fallback`: the fixed-order rule ladder,
finishing with the generic bullet when the list is still empty. -/
def generate_fallback_bullets (kpis : KPIData) (comp : KPIComparison) : List String :=
  let r0 : List String := []
  let r1 := if kpis.net_result < 0 then r0 ++ [fallbackBullet1] else r0
  let r2 := if comp.revenue_variation < -10 then r1 ++ [fallbackBullet2] else r1
  let r3 := if kpis.returning_customers < kpis.new_customers then r2 ++ [fallbackBullet3] else r2
  if r3.isEmpty then r3 ++ [fallbackBullet4] else r3

/-- Embeds `RecommendationsGenerator._generate_fallback`:
return "\n".join(rec[:3]).  The `insights` parameter is accepted and
ignored, exactly as in the source. -/
def generate_fallback (kpis : KPIData) (comp : KPIComparison)
    (_insights : List InsightModel) : String :=
  String.intercalate "\n" ((generate_fallback_bullets kpis comp).take 3)

/-! ## C10 — RecommendationsGenerator._clean_recommendations
    (app/core/recommendations/generator.py, lines 79–88)

    Python strings are embedded as `List Char`.  `str.replace`,
    `str.replace(_, _, 1)`, `str.startswith`, `str.strip`, `str.split()`,
    `str.split("\n")` and `"\n".join` are given executable embeddings
    below.  The two scanning functions that consume a variable number of
    characters per step (`replaceAllF`, `splitWsF`) carry an explicit fuel
    argument equal to the input length so that recursion stays structural
    (the fuel is never exhausted: each step consumes at least one
    character). -/

/-- Python `s.startswith(p)` on character lists. -/
def listStartsWith : List Char → List Char → Bool
  | _, [] => true
  | [], _ :: _ => false
  | c :: s, p :: ps => c == p && listStartsWith s ps

/-- Fueled worker for `replaceAll`: replace every occurrence of the
non-empty pattern `c0 :: cs` by the empty string, scanning left to right
(Python `s.replace(pattern, "")`). -/
def replaceAllF (c0 : Char) (cs : List Char) : ℕ → List Char → List Char
  | 0, s => s
  | _ + 1, [] => []
  | fuel + 1, c :: rest =>
    if listStartsWith (c :: rest) (c0 :: cs) then
      replaceAllF c0 cs fuel ((c :: rest).drop (c0 :: cs).length)
    else
      c :: replaceAllF c0 cs fuel rest

/-- Python `s.replace(c0 :: cs, "")`. -/
def replaceAll (c0 : Char) (cs : List Char) (s : List Char) : List Char :=
  replaceAllF c0 cs s.length s

/-- Python `s.replace(p, "", 1)`: drop the first occurrence of `p`. -/
def replaceFirst (p : List Char) : List Char → List Char
  | [] => []
  | c :: rest =>
    if listStartsWith (c :: rest) p then (c :: rest).drop p.length
    else c :: replaceFirst p rest

/-- Python `s.strip()`: drop leading and trailing whitespace. -/
def pyStrip (s : List Char) : List Char :=
  ((s.dropWhile Char.isWhitespace).reverse.dropWhile Char.isWhitespace).reverse

/-- Fueled worker for Python `s.split()` (split on whitespace runs,
dropping empty pieces). -/
def splitWsF : ℕ → List Char → List (List Char)
  | 0, _ => []
  | _ + 1, [] => []
  | fuel + 1, c :: rest =>
    if c.isWhitespace then splitWsF fuel rest
    else
      (c :: rest.takeWhile (fun x => !x.isWhitespace))
        :: splitWsF fuel (rest.dropWhile (fun x => !x.isWhitespace))

/-- Python `s.split()`. -/
def splitWs (s : List Char) : List (List Char) :=
  splitWsF s.length s

/-- Python `" ".join(pieces)`. -/
def joinSpace : List (List Char) → List Char
  | [] => []
  | [p] => p
  | p :: q :: ps => p ++ ' ' :: joinSpace (q :: ps)

/-- Python `" ".join(s.split())`: whitespace normalization. -/
def pyNormalize (s : List Char) : List Char :=
  joinSpace (splitWs s)

/-- Python `s.split("\n")` (keeps empty pieces; `"".split("\n") = [""]`). -/
def splitNl : List Char → List (List Char)
  | [] => [[]]
  | c :: rest =>
    if c = '\n' then [] :: splitNl rest
    else
      match splitNl rest with
      | [] => [[c]]
      | h :: t => (c :: h) :: t

/-- The known preamble phrases stripped by `_clean_recommendations`. -/
def preamblePhrases : List (List Char) :=
  ["Voici mes recommandations :".data, "Recommandations :".data,
   "Mes recommandations :".data, "Je recommande :".data,
   "Je vous recommande :".data]

/-- One iteration of the preamble-stripping loop:
`if text.strip().startswith(p): text = text.replace(p, "", 1)`. -/
def stripOne (t p : List Char) : List Char :=
  if listStartsWith (pyStrip t) p then replaceFirst p t else t

/-- The whole preamble-stripping loop. -/
def stripPreambles (t : List Char) : List Char :=
  preamblePhrases.foldl stripOne t

/-- The emphasis/preamble removal part of `_clean_recommendations`:
replace "**", then "*", then "#" by "", then strip the known preambles. -/
def cleaned_core (text : List Char) : List Char :=
  stripPreambles (replaceAll '#' [] (replaceAll '*' [] (replaceAll '*' ['*'] text)))

/-- Per-line dash bulleting:
`l.strip() if l.strip().startswith("-") else "- " + l.strip()` applied to
an already-stripped line. -/
def bulletLine (ls : List Char) : List Char :=
  if listStartsWith ls ['-'] then ls else '-' :: ' ' :: ls

/-- Embeds `RecommendationsGenerator._clean_recommendations`. -/
def clean_recommendations (text : List Char) : List Char :=
  match text with
  | [] => []
  | _ =>
    let t5 := pyNormalize (cleaned_core text)
    let lines := (splitNl t5).filterMap
      (fun l => if pyStrip l = [] then none else some (bulletLine (pyStrip l)))
    (lines.intersperse ['\n']).flatten

/-! ## C5 — period resolution
    (app/utils/date_utils.py lines 46–77 and
     app/core/kpi/comparator.py lines 37–67)

    Python `datetime.date` is embedded as a year/month/day record over the
    proleptic Gregorian calendar with year ≥ 1, together with the
    `toordinal`-style day number (001-01-01 = day 1, Python's
    `_ymd2ord`).  `timedelta` subtraction of n days is n applications of
    the calendar predecessor; subtraction of two dates is the difference
    of their day numbers. -/

/-- A calendar date (year ≥ 1 on valid dates, as in `datetime.date`). -/
structure Date where
  year : ℕ
  month : ℕ
  day : ℕ
  deriving DecidableEq

/-- Gregorian leap-year rule (`calendar.isleap`). -/
def isLeapYear (y : ℕ) : Bool :=
  (y % 4 == 0 && y % 100 != 0) || y % 400 == 0

/-- Days in a month (`calendar.monthrange`). -/
def daysInMonth (y m : ℕ) : ℕ :=
  match m with
  | 2 => if isLeapYear y then 29 else 28
  | 4 => 30
  | 6 => 30
  | 9 => 30
  | 11 => 30
  | _ => 31

/-- Days in year y strictly before month m (Python `_days_before_month`). -/
def daysBeforeMonth (y m : ℕ) : ℕ :=
  ((List.range (m - 1)).map (fun k => daysInMonth y (k + 1))).sum

/-- Days strictly before year y (Python `_days_before_year`):
365·(y−1) + (y−1)/4 − (y−1)/100 + (y−1)/400. -/
def daysBeforeYear (y : ℕ) : ℤ :=
  365 * ((y : ℤ) - 1) + (((y - 1) / 4 : ℕ) : ℤ)
    - (((y - 1) / 100 : ℕ) : ℤ) + (((y - 1) / 400 : ℕ) : ℤ)

/-- Python `date.toordinal()` (001-01-01 is day 1). -/
def toOrdinal (d : Date) : ℤ :=
  daysBeforeYear d.year + (daysBeforeMonth d.year d.month : ℤ) + (d.day : ℤ)

/-- The dates representable by `datetime.date` (ignoring the year-9999
upper bound, which none of the verified operations can exceed downward). -/
def ValidDate (d : Date) : Prop :=
  1 ≤ d.year ∧ 1 ≤ d.month ∧ d.month ≤ 12
    ∧ 1 ≤ d.day ∧ d.day ≤ daysInMonth d.year d.month

instance (d : Date) : Decidable (ValidDate d) :=
  inferInstanceAs (Decidable (_ ∧ _ ∧ _ ∧ _ ∧ _))

/-- The previous calendar day (borrowing through month and year starts). -/
def predDate (d : Date) : Date :=
  if 1 < d.day then ⟨d.year, d.month, d.day - 1⟩
  else if 1 < d.month then ⟨d.year, d.month - 1, daysInMonth d.year (d.month - 1)⟩
  else ⟨d.year - 1, 12, 31⟩

/-- Python `d - timedelta(days = n)` for n ≥ 0. -/
def subDays (d : Date) : ℕ → Date
  | 0 => d
  | n + 1 => subDays (predDate d) n

/-- ReportFrequency enum from app/domain/enums.py. -/
inductive ReportFrequency where
  | weekly
  | monthly
  | quarterly
  deriving DecidableEq

/-- Embeds `calculate_period_dates` (app/utils/date_utils.py): weekly =
end−6d..end; monthly = first of month..end; quarterly = first day of month
((month−1)/3)·3+1..end.  The source's `except ValueError` fallback around
the quarterly `replace` is unreachable (day 1 exists in every month) and
is not modelled. -/
def calculate_period_dates (frequency : ReportFrequency) (end_date : Date) :
    Date × Date :=
  match frequency with
  | .weekly => (subDays end_date 6, end_date)
  | .monthly => (⟨end_date.year, end_date.month, 1⟩, end_date)
  | .quarterly =>
    let quarter_month := ((end_date.month - 1) / 3) * 3 + 1
    (⟨end_date.year, quarter_month, 1⟩, end_date)

/-- Embeds `KPIComparator._calculate_previous_period_dates`:
period_duration = (end − start).days + 1; prev_end = start − 1d;
prev_start = prev_end − (period_duration − 1)d. -/
def calculate_previous_period_dates (start_date end_date : Date) :
    Date × Date :=
  let period_duration := (toOrdinal end_date - toOrdinal start_date).toNat + 1
  let prev_end_date := subDays start_date 1
  let prev_start_date := subDays prev_end_date (period_duration - 1)
  (prev_start_date, prev_end_date)

/-! ## C8 — IdempotencyManager.is_duplicate
    (app/utils/idempotency.py, lines 75–130)

    The shared Redis store is modelled as an association list from keys to
    absolute expiry times (a key is "present" iff its expiry lies in the
    future); `SET key value EX ttl NX` is the atomic set-if-absent
    primitive.  A possible store failure is injected through `Except`. -/

/-- Key-value store state: key → absolute expiry time. -/
abbrev IdemStore := List (String × ℕ)

/-- A key is live at `now` iff it is present and unexpired. -/
def storeLive (st : IdemStore) (now : ℕ) (k : String) : Bool :=
  match st.lookup k with
  | some exp => decide (now < exp)
  | none => false

/-- Redis `SET key "1" EX ttl NX`: succeeds (returns true and writes the
entry with expiry now + ttl) iff the key is absent or expired. -/
def redisSetNX (st : IdemStore) (now : ℕ) (k : String) (ttl : ℕ) :
    Bool × IdemStore :=
  if storeLive st now k then (false, st)
  else (true, (k, now + ttl) :: st)

/-- Embeds `IdempotencyManager._make_key` with the default store key
prefix string "idempotency". -/
def make_key (task_name idempotency_key : String) : String :=
  "idempotency" ++ ":" ++ task_name ++ ":" ++ idempotency_key

/-- Embeds the body of `IdempotencyManager.is_duplicate` given the outcome
of the store call: on a normal reply `is_new`, return `not is_new`; if the
store raised, log and return false (fail open). -/
def is_duplicateE (r : Except Unit (Bool × IdemStore)) (st : IdemStore) :
    Bool × IdemStore :=
  match r with
  | .ok (is_new, st') => (!is_new, st')
  | .error _ => (false, st)

/-- Embeds `IdempotencyManager.is_duplicate` on a working store. -/
def is_duplicate (st : IdemStore) (now : ℕ) (task_name idempotency_key : String)
    (ttl_seconds : ℕ) : Bool × IdemStore :=
  is_duplicateE
    (.ok (redisSetNX st now (make_key task_name idempotency_key) ttl_seconds)) st

/-! ## C9 — RateLimiter.check_rate_limit
    (app/utils/rate_limiter.py, lines 77–170)

    State for one (client fingerprint, endpoint) pair: the minute and hour
    counters (count, absolute expiry) and the block entry (absolute
    expiry).  Redis `INCR` on an absent or expired key creates it with
    value 1, and the code immediately assigns the TTL when the returned
    count is 1, so creation and expiry assignment are one atomic step
    here.  `custom_limit` is absorbed into the per-minute cap of the
    configuration. -/

/-- Rate-limiter configuration. -/
structure RLConfig where
  requests_per_minute : ℕ
  requests_per_hour : ℕ
  block_duration_seconds : ℕ

/-- Counter/block state for one client and endpoint. -/
structure RLState where
  minute : Option (ℕ × ℕ)
  hour : Option (ℕ × ℕ)
  block : Option ℕ
  deriving DecidableEq

/-- Outcome of one `check_rate_limit` call: allowed, or one of the three
HTTP 429 rejections. -/
inductive RLOutcome where
  | allowed
  | blockedReject
  | minuteReject
  | hourReject
  deriving DecidableEq

/-- The block entry is live at `now` iff present and unexpired. -/
def blockLive : Option ℕ → ℕ → Bool
  | some exp, now => decide (now < exp)
  | none, _ => false

/-- Redis `INCR` followed by `EXPIRE ttl` when the returned count is 1. -/
def redisIncr (e : Option (ℕ × ℕ)) (now ttl : ℕ) : ℕ × Option (ℕ × ℕ) :=
  match e with
  | some (c, exp) =>
    if now < exp then (c + 1, some (c + 1, exp))
    else (1, some (1, now + ttl))
  | none => (1, some (1, now + ttl))

/-- Embeds `RateLimiter.check_rate_limit` as a step on the per-client
state: reject while blocked; increment both counters (60 s and 3600 s
windows); over the minute cap → set the block entry and reject; over the
hour cap → reject without touching the block entry; otherwise allow. -/
def check_rate_limit (cfg : RLConfig) (st : RLState) (now : ℕ) :
    RLOutcome × RLState :=
  if blockLive st.block now then (.blockedReject, st)
  else
    let m := redisIncr st.minute now 60
    let h := redisIncr st.hour now 3600
    if m.1 > cfg.requests_per_minute then
      (.minuteReject, ⟨m.2, h.2, some (now + cfg.block_duration_seconds)⟩)
    else if h.1 > cfg.requests_per_hour then
      (.hourReject, ⟨m.2, h.2, st.block⟩)
    else
      (.allowed, ⟨m.2, h.2, st.block⟩)

/-- The state of a client that has never made a request. -/
def emptyRLState : RLState := ⟨none, none, none⟩

/-- State after n requests, all issued at time t0, starting from the empty
state. -/
def rlIter (cfg : RLConfig) (t0 : ℕ) : ℕ → RLState
  | 0 => emptyRLState
  | n + 1 => (check_rate_limit cfg (rlIter cfg t0 n) t0).2

/-- Sample insight used by the C3 witness (priority 3, no impact, actionable). -/
def sampleInsightA : InsightModel :=
  ⟨.stock_alert, "a", "d", 3, none, true⟩

/-- Sample insight used by the C3 witness (priority 5, no impact, actionable). -/
def sampleInsightB : InsightModel :=
  ⟨.churn_risk, "b", "d", 5, none, true⟩

end Reporting

namespace Reporting

/-! ## Theorems -/

/-! ### Helper lemmas for C2 -/

lemma extract_insights_loop_eq (acc : List InsightModel) (rs : List MinerResult) :
    extract_insights_loop acc rs = acc ++ rs.filterMap minedInsight := by
  induction rs generalizing acc with
  | nil => simp [extract_insights_loop]
  | cons r rs ih =>
    cases r with
    | ok o =>
      cases o with
      | some i => simp [extract_insights_loop, ih, minedInsight, List.filterMap_cons]
      | none => simp [extract_insights_loop, ih, minedInsight, List.filterMap_cons]
    | error e => simp [extract_insights_loop, ih, minedInsight, List.filterMap_cons]

lemma extract_insights_eq (rs : List MinerResult) :
    extract_insights rs = rs.filterMap minedInsight := by
  simp [extract_insights, extract_insights_loop_eq]

lemma length_filterMap_minedInsight (rs : List MinerResult) :
    (rs.filterMap minedInsight).length = rs.countP (fun r => (minedInsight r).isSome) := by
  induction rs with
  | nil => rfl
  | cons r rs ih =>
    cases hr : minedInsight r <;>
      simp [List.filterMap_cons, List.countP_cons, hr, ih]

/-! ### Helper lemmas for C3 and C6 -/

lemma defaultSelector_pw : defaultSelector.priority_weight = 40 := by
  norm_num [defaultSelector, mkInsightSelector]

lemma defaultSelector_fw : defaultSelector.financial_impact_weight = 30 := by
  norm_num [defaultSelector, mkInsightSelector]

lemma defaultSelector_aw : defaultSelector.actionable_weight = 30 := by
  norm_num [defaultSelector, mkInsightSelector]

lemma financial_component_mono (v w : ℚ) (hvw : v ≤ w) :
    financial_component defaultSelector (some v)
      ≤ financial_component defaultSelector (some w) := by
  rw [financial_component, financial_component, defaultSelector_fw]
  split_ifs with hv hw hw
  · exact le_rfl
  · have hwpos : 0 < w := lt_of_le_of_ne (hv ▸ hvw) (Ne.symm hw)
    have : (0 : ℚ) < min (w / 1000000) 1 := lt_min (by positivity) one_pos
    nlinarith
  · have hvneg : v < 0 := lt_of_le_of_ne (hw ▸ hvw) hv
    have : min (v / 1000000) 1 = v / 1000000 :=
      min_eq_left (by nlinarith)
    rw [this]
    nlinarith
  · have hmin : min (v / 1000000) 1 ≤ min (w / 1000000) 1 :=
      min_le_min (by linarith) le_rfl
    nlinarith


/-- C7: the deterministic fallback recommendation builder returns a
non-empty string of at most 3 dash-bulleted lines via the fixed-order rule
ladder (negative net result → cut-expenses bullet, revenue variation below
−10 → promotion bullet, returning < new customers → loyalty bullet, and the
generic keep-monitoring bullet exactly when no rule fired), for every KPI
snapshot, comparison and insight list — including zero insights and zero
revenue. -/
theorem generate_fallback_spec (kpis : KPIData) (comp : KPIComparison)
    (insights : List InsightModel) :
    generate_fallback kpis comp insights ≠ ""
    ∧ generate_fallback kpis comp insights
        = String.intercalate "\n" ((generate_fallback_bullets kpis comp).take 3)
    ∧ generate_fallback_bullets kpis comp ≠ []
    ∧ (generate_fallback_bullets kpis comp).length ≤ 3
    ∧ (∀ l ∈ generate_fallback_bullets kpis comp, l.data.head? = some '-')
    ∧ (kpis.net_result < 0 →
        fallbackBullet1 ∈ generate_fallback_bullets kpis comp)
    ∧ (comp.revenue_variation < -10 →
        fallbackBullet2 ∈ generate_fallback_bullets kpis comp)
    ∧ (kpis.returning_customers < kpis.new_customers →
        fallbackBullet3 ∈ generate_fallback_bullets kpis comp)
    ∧ (¬ kpis.net_result < 0 → ¬ comp.revenue_variation < -10 →
        ¬ kpis.returning_customers < kpis.new_customers →
        generate_fallback_bullets kpis comp = [fallbackBullet4]) := by
  by_cases h1 : kpis.net_result < 0 <;>
    by_cases h2 : comp.revenue_variation < -10 <;>
      by_cases h3 : kpis.returning_customers < kpis.new_customers <;>
        refine ⟨?_, rfl, ?_, ?_, ?_, ?_, ?_, ?_, ?_⟩ <;>
          simp only [generate_fallback, generate_fallback_bullets, h1, h2, h3,
            if_true, if_false, ite_true, ite_false, List.nil_append,
            List.isEmpty_nil, List.isEmpty_cons, List.append_nil] <;>
          decide

/-! ### Helper lemmas for C10 -/

lemma listStartsWith_head {ls : List Char} (h : listStartsWith ls ['-'] = true) :
    ls.head? = some '-' := by
  cases ls with
  | nil => simp [listStartsWith] at h
  | cons c s =>
    simp only [listStartsWith, Bool.and_eq_true, beq_iff_eq] at h
    simp [h.1]

lemma mem_of_replaceAllF (c0 : Char) (cs : List Char) :
    ∀ (fuel : ℕ) (s : List Char), ∀ x ∈ replaceAllF c0 cs fuel s, x ∈ s := by
  intro fuel
  induction fuel with
  | zero => intro s x hx; exact hx
  | succ n ih =>
    intro s x hx
    cases s with
    | nil => exact hx
    | cons c rest =>
      rw [replaceAllF] at hx
      split_ifs at hx with h
      · exact List.drop_subset _ _ (ih _ x hx)
      · rcases List.mem_cons.mp hx with h1 | h1
        · exact h1 ▸ List.mem_cons_self _ _
        · exact List.mem_cons_of_mem _ (ih _ x h1)

lemma not_mem_replaceAllF (c : Char) :
    ∀ (fuel : ℕ) (s : List Char), s.length ≤ fuel → c ∉ replaceAllF c [] fuel s := by
  intro fuel
  induction fuel with
  | zero =>
    intro s hs
    have : s = [] := List.length_eq_zero.mp (Nat.le_zero.mp hs)
    subst this
    simp [replaceAllF]
  | succ n ih =>
    intro s hs
    cases s with
    | nil => simp [replaceAllF]
    | cons a rest =>
      rw [replaceAllF]
      split_ifs with h
      · exact ih rest (by simpa using hs)
      · have hac : ¬ (a == c) = true := by
          simpa [listStartsWith] using h
        intro hmem
        rcases List.mem_cons.mp hmem with h1 | h1
        · exact hac (by simp [h1])
        · exact ih rest (by simpa using hs) h1

lemma mem_of_replaceFirst (p : List Char) :
    ∀ (s : List Char), ∀ x ∈ replaceFirst p s, x ∈ s := by
  intro s
  induction s with
  | nil => intro x hx; exact hx
  | cons c rest ih =>
    intro x hx
    rw [replaceFirst] at hx
    split_ifs at hx with h
    · exact List.drop_subset _ _ hx
    · rcases List.mem_cons.mp hx with h1 | h1
      · exact h1 ▸ List.mem_cons_self _ _
      · exact List.mem_cons_of_mem _ (ih x h1)

lemma mem_of_stripOne (t p : List Char) : ∀ x ∈ stripOne t p, x ∈ t := by
  intro x hx
  rw [stripOne] at hx
  split_ifs at hx with h
  · exact mem_of_replaceFirst p t x hx
  · exact hx

lemma mem_of_foldl_stripOne :
    ∀ (ps : List (List Char)) (t : List Char), ∀ x ∈ ps.foldl stripOne t, x ∈ t := by
  intro ps
  induction ps with
  | nil => intro t x hx; simpa using hx
  | cons p ps ih =>
    intro t x hx
    exact mem_of_stripOne t p x (ih (stripOne t p) x hx)

lemma mem_of_dropWhile (q : Char → Bool) (l : List Char) :
    ∀ x ∈ l.dropWhile q, x ∈ l := by
  intro x hx
  have h := List.takeWhile_append_dropWhile (p := q) (l := l)
  rw [← h]
  exact List.mem_append_right _ hx

lemma mem_of_takeWhile (q : Char → Bool) (l : List Char) :
    ∀ x ∈ l.takeWhile q, x ∈ l := by
  intro x hx
  have h := List.takeWhile_append_dropWhile (p := q) (l := l)
  rw [← h]
  exact List.mem_append_left _ hx

lemma mem_dropWhile_of_not (q : Char → Bool) :
    ∀ (l : List Char) (x : Char), x ∈ l → q x = false → x ∈ l.dropWhile q := by
  intro l
  induction l with
  | nil => intro x hx; simp at hx
  | cons a rest ih =>
    intro x hx hq
    rcases List.mem_cons.mp hx with h1 | h1
    · subst h1
      rw [List.dropWhile_cons, hq]
      exact List.mem_cons_self _ _
    · rw [List.dropWhile_cons]
      split_ifs with ha
      · exact ih x h1 hq
      · exact List.mem_cons_of_mem _ h1

lemma dropWhile_length_le (q : Char → Bool) :
    ∀ l : List Char, (l.dropWhile q).length ≤ l.length := by
  intro l
  induction l with
  | nil => simp
  | cons a rest ih =>
    rw [List.dropWhile_cons]
    split_ifs with ha
    · exact le_trans ih (Nat.le_succ _)
    · exact le_rfl

lemma splitWsF_sound :
    ∀ (fuel : ℕ) (s : List Char), ∀ p ∈ splitWsF fuel s, ∀ x ∈ p,
      x ∈ s ∧ x.isWhitespace = false := by
  intro fuel
  induction fuel with
  | zero => intro s p hp; simp [splitWsF] at hp
  | succ n ih =>
    intro s p hp x hx
    cases s with
    | nil => simp [splitWsF] at hp
    | cons c rest =>
      rw [splitWsF] at hp
      split_ifs at hp with hc
      · obtain ⟨h1, h2⟩ := ih rest p hp x hx
        exact ⟨List.mem_cons_of_mem _ h1, h2⟩
      · rcases List.mem_cons.mp hp with h1 | h1
        · subst h1
          rcases List.mem_cons.mp hx with h2 | h2
          · subst h2
            exact ⟨List.mem_cons_self _ _, by simpa using hc⟩
          · refine ⟨List.mem_cons_of_mem _
              (mem_of_takeWhile _ rest x h2), ?_⟩
            have := List.mem_takeWhile_imp h2
            simpa using this
        · obtain ⟨h2, h3⟩ := ih _ p h1 x hx
          exact ⟨List.mem_cons_of_mem _ (mem_of_dropWhile _ rest x h2), h3⟩

lemma splitWsF_nil_all_ws :
    ∀ (fuel : ℕ) (s : List Char), s.length ≤ fuel → splitWsF fuel s = [] →
      ∀ x ∈ s, x.isWhitespace = true := by
  intro fuel
  induction fuel with
  | zero =>
    intro s hs
    have : s = [] := List.length_eq_zero.mp (Nat.le_zero.mp hs)
    subst this
    simp
  | succ n ih =>
    intro s hs hnil x hx
    cases s with
    | nil => simp at hx
    | cons c rest =>
      rw [splitWsF] at hnil
      split_ifs at hnil with hc
      · rcases List.mem_cons.mp hx with h1 | h1
        · exact h1 ▸ hc
        · exact ih rest (by simpa using hs) hnil x h1

lemma splitWsF_covers :
    ∀ (fuel : ℕ) (s : List Char) (x : Char), s.length ≤ fuel → x ∈ s →
      x.isWhitespace = false → ∃ p ∈ splitWsF fuel s, x ∈ p := by
  intro fuel
  induction fuel with
  | zero =>
    intro s x hs hx
    have : s = [] := List.length_eq_zero.mp (Nat.le_zero.mp hs)
    subst this
    simp at hx
  | succ n ih =>
    intro s x hs hx hws
    cases s with
    | nil => simp at hx
    | cons c rest =>
      rw [splitWsF]
      split_ifs with hc
      · rcases List.mem_cons.mp hx with h1 | h1
        · rw [h1] at hws
          rw [hws] at hc
          simp at hc
        · exact ih rest x (by simpa using hs) h1 hws
      · rcases List.mem_cons.mp hx with h1 | h1
        · exact ⟨_, List.mem_cons_self _ _, h1 ▸ List.mem_cons_self _ _⟩
        · have hsplit := List.takeWhile_append_dropWhile
            (p := fun y => !y.isWhitespace) (l := rest)
          have : x ∈ rest.takeWhile (fun y => !y.isWhitespace)
              ∨ x ∈ rest.dropWhile (fun y => !y.isWhitespace) := by
            rw [← hsplit] at h1
            exact List.mem_append.mp h1
          rcases this with h2 | h2
          · exact ⟨_, List.mem_cons_self _ _, List.mem_cons_of_mem _ h2⟩
          · have hlen : (rest.dropWhile (fun y => !y.isWhitespace)).length ≤ n := by
              have := dropWhile_length_le (fun y => !y.isWhitespace) rest
              have hr : rest.length ≤ n := by simpa using hs
              omega
            obtain ⟨p, hp, hxp⟩ := ih _ x hlen h2 hws
            exact ⟨p, List.mem_cons_of_mem _ hp, hxp⟩

lemma mem_joinSpace :
    ∀ (ps : List (List Char)) (x : Char), x ∈ joinSpace ps →
      (∃ p ∈ ps, x ∈ p) ∨ x = ' ' := by
  intro ps
  induction ps with
  | nil => intro x hx; simp [joinSpace] at hx
  | cons p t ih =>
    intro x hx
    cases t with
    | nil => exact Or.inl ⟨p, List.mem_cons_self _ _, by simpa [joinSpace] using hx⟩
    | cons q ps' =>
      rw [joinSpace] at hx
      rcases List.mem_append.mp hx with h | h
      · exact Or.inl ⟨p, List.mem_cons_self _ _, h⟩
      · rcases List.mem_cons.mp h with h | h
        · exact Or.inr h
        · rcases ih x h with ⟨r, hr, hxr⟩ | h'
          · exact Or.inl ⟨r, List.mem_cons_of_mem _ hr, hxr⟩
          · exact Or.inr h'

lemma mem_joinSpace_of :
    ∀ (ps : List (List Char)) (p : List Char) (x : Char), p ∈ ps → x ∈ p →
      x ∈ joinSpace ps := by
  intro ps
  induction ps with
  | nil => intro p x hp; simp at hp
  | cons r t ih =>
    intro p x hp hxp
    cases t with
    | nil =>
      rcases List.mem_cons.mp hp with h | h
      · subst h; simpa [joinSpace] using hxp
      · simp at h
    | cons q ps' =>
      rw [joinSpace]
      rcases List.mem_cons.mp hp with h | h
      · subst h; exact List.mem_append_left _ hxp
      · exact List.mem_append_right _ (List.mem_cons_of_mem _ (ih p x h hxp))

lemma mem_pyNormalize (s : List Char) (x : Char) (hx : x ∈ pyNormalize s) :
    (x ∈ s ∧ x.isWhitespace = false) ∨ x = ' ' := by
  rcases mem_joinSpace _ x hx with ⟨p, hp, hxp⟩ | h
  · exact Or.inl (splitWsF_sound _ s p hp x hxp)
  · exact Or.inr h

lemma mem_of_pyStrip (s : List Char) : ∀ x ∈ pyStrip s, x ∈ s := by
  intro x hx
  rw [pyStrip] at hx
  rw [List.mem_reverse] at hx
  have h1 := mem_of_dropWhile _ _ x hx
  rw [List.mem_reverse] at h1
  exact mem_of_dropWhile _ _ x h1

lemma pyStrip_ne_nil (s : List Char) (x : Char) (hx : x ∈ s)
    (hws : x.isWhitespace = false) : pyStrip s ≠ [] := by
  have h1 : x ∈ s.dropWhile Char.isWhitespace :=
    mem_dropWhile_of_not _ s x hx hws
  have h2 : x ∈ (s.dropWhile Char.isWhitespace).reverse :=
    List.mem_reverse.mpr h1
  have h3 : x ∈ (s.dropWhile Char.isWhitespace).reverse.dropWhile Char.isWhitespace :=
    mem_dropWhile_of_not _ _ x h2 hws
  have h4 : x ∈ pyStrip s := by
    rw [pyStrip, List.mem_reverse]
    exact h3
  exact List.ne_nil_of_mem h4

lemma splitNl_no_nl : ∀ s : List Char, '\n' ∉ s → splitNl s = [s] := by
  intro s
  induction s with
  | nil => intro _; rfl
  | cons c rest ih =>
    intro h
    have hc : ¬ c = '\n' := fun hc => h (hc ▸ List.mem_cons_self _ _)
    have hrest : '\n' ∉ rest := fun hr => h (List.mem_cons_of_mem _ hr)
    rw [splitNl, if_neg hc, ih hrest]

lemma mem_bulletLine (ls : List Char) (x : Char) (hx : x ∈ bulletLine ls) :
    x ∈ ls ∨ x = '-' ∨ x = ' ' := by
  rw [bulletLine] at hx
  split_ifs at hx with h
  · exact Or.inl hx
  · rcases List.mem_cons.mp hx with h1 | h1
    · exact Or.inr (Or.inl h1)
    · rcases List.mem_cons.mp h1 with h2 | h2
      · exact Or.inr (Or.inr h2)
      · exact Or.inl h2

lemma bulletLine_head (ls : List Char) : (bulletLine ls).head? = some '-' := by
  rw [bulletLine]
  split_ifs with h
  · exact listStartsWith_head h
  · rfl

lemma bulletLine_ne_nil (ls : List Char) : bulletLine ls ≠ [] := by
  rw [bulletLine]
  split_ifs with h
  · cases ls with
    | nil => simp [listStartsWith] at h
    | cons c s => simp
  · simp

lemma clean_structure (text : List Char) :
    (clean_recommendations text = []
      ∧ (text = [] ∨ pyStrip (pyNormalize (cleaned_core text)) = []))
    ∨ ∃ ls, ls ≠ [] ∧ (∀ x ∈ ls, x ∈ pyNormalize (cleaned_core text))
        ∧ clean_recommendations text = bulletLine ls := by
  cases text with
  | nil => exact Or.inl ⟨rfl, Or.inl rfl⟩
  | cons a t =>
    have hnl : '\n' ∉ pyNormalize (cleaned_core (a :: t)) := by
      intro h
      rcases mem_pyNormalize _ _ h with ⟨_, hws⟩ | heq
      · simp at hws
      · simp at heq
    have hsplit : splitNl (pyNormalize (cleaned_core (a :: t)))
        = [pyNormalize (cleaned_core (a :: t))] := splitNl_no_nl _ hnl
    by_cases hs : pyStrip (pyNormalize (cleaned_core (a :: t))) = []
    · left
      constructor
      · simp [clean_recommendations, hsplit, hs]
      · exact Or.inr hs
    · right
      refine ⟨pyStrip (pyNormalize (cleaned_core (a :: t))), hs,
        fun x hx => mem_of_pyStrip _ x hx, ?_⟩
      simp [clean_recommendations, hsplit, hs]

lemma cleaned_core_mem_chain (text : List Char) :
    ∀ x ∈ cleaned_core text,
      x ∈ replaceAll '#' [] (replaceAll '*' [] (replaceAll '*' ['*'] text)) := by
  intro x hx
  exact mem_of_foldl_stripOne preamblePhrases _ x hx

lemma star_not_mem_cleaned_core (text : List Char) : '*' ∉ cleaned_core text := by
  intro hm
  have h3 := cleaned_core_mem_chain text '*' hm
  have h2 := mem_of_replaceAllF '#' [] _ _ '*' h3
  exact not_mem_replaceAllF '*' _ _ le_rfl h2

lemma hash_not_mem_cleaned_core (text : List Char) : '#' ∉ cleaned_core text := by
  intro hm
  have h3 := cleaned_core_mem_chain text '#' hm
  exact not_mem_replaceAllF '#' _ _ le_rfl h3

lemma clean_nil_all_ws (text : List Char)
    (h : clean_recommendations text = []) :
    ∀ x ∈ cleaned_core text, x.isWhitespace = true := by
  intro x hx
  by_contra hws
  have hwsf : x.isWhitespace = false := by simpa using hws
  have hx5 : x ∈ pyNormalize (cleaned_core text) := by
    obtain ⟨p, hp, hxp⟩ :=
      splitWsF_covers (cleaned_core text).length (cleaned_core text) x le_rfl hx hwsf
    exact mem_joinSpace_of _ p x hp hxp
  rcases clean_structure text with ⟨_, htxt | hstrip⟩ | ⟨ls, hls, hsub, heq⟩
  · subst htxt
    have : cleaned_core ([] : List Char) = [] := rfl
    rw [this] at hx
    simp at hx
  · exact pyStrip_ne_nil _ x hx5 hwsf hstrip
  · rw [heq] at h
    exact bulletLine_ne_nil ls h

/-- C10: for every input string, the AI-output sanitizer returns a string
with no '*' and no '#' characters and no newline characters; any non-empty
result is a single line starting with '-'; and an empty result occurs only
when the text, after marker and preamble removal, is entirely whitespace. -/
theorem clean_recommendations_spec (text : List Char) :
    '*' ∉ clean_recommendations text
    ∧ '#' ∉ clean_recommendations text
    ∧ '\n' ∉ clean_recommendations text
    ∧ (clean_recommendations text ≠ [] →
        (clean_recommendations text).head? = some '-')
    ∧ (clean_recommendations text = [] →
        ∀ x ∈ cleaned_core text, x.isWhitespace = true) := by
  rcases clean_structure text with ⟨hnil, _⟩ | ⟨ls, hls, hsub, heq⟩
  · rw [hnil]
    exact ⟨by simp, by simp, by simp, fun hne => absurd rfl hne,
      fun _ => clean_nil_all_ws text hnil⟩
  · have hchar : ∀ (c : Char), c ∉ cleaned_core text ∨ c.isWhitespace = true →
        c ≠ '-' → c ≠ ' ' → c ∉ bulletLine ls := by
      intro c hc hd hsp hm
      rcases mem_bulletLine ls c hm with h1 | h1 | h1
      · have h5 := hsub c h1
        rcases mem_pyNormalize _ c h5 with ⟨hcc, hws⟩ | hcc
        · rcases hc with hc | hc
          · exact hc hcc
          · rw [hc] at hws; simp at hws
        · exact hsp hcc
      · exact hd h1
      · exact hsp h1
    rw [heq]
    refine ⟨?_, ?_, ?_, fun _ => bulletLine_head ls, ?_⟩
    · exact hchar '*' (Or.inl (star_not_mem_cleaned_core text))
        (by decide) (by decide)
    · exact hchar '#' (Or.inl (hash_not_mem_cleaned_core text))
        (by decide) (by decide)
    · exact hchar '\n' (Or.inr (by decide)) (by decide) (by decide)
    · intro h
      exact absurd h (bulletLine_ne_nil ls)

/-- Witness for C10: a marked-up multi-line input yields a one-line dashed
result, and an all-marker input yields the empty result with an
all-whitespace core. -/
theorem clean_recommendations_spec_witness :
    clean_recommendations "a*b".data ≠ []
    ∧ (clean_recommendations "a*b".data).head? = some '-'
    ∧ clean_recommendations "*".data = []
    ∧ (∀ x ∈ cleaned_core "*".data, x.isWhitespace = true) := by
  refine ⟨by decide, ?_, by decide, ?_⟩
  · exact (clean_recommendations_spec "a*b".data).2.2.2.1 (by decide)
  · exact (clean_recommendations_spec "*".data).2.2.2.2 (by decide)

/-- Witness for C7: a loss-making snapshot with falling revenue and more
new than returning customers fires all three rule bullets; zero insights
and zero revenue. -/
theorem generate_fallback_spec_witness :
    fallbackBullet1 ∈ generate_fallback_bullets ⟨0, 0, 5, 2, 0, 5, -5⟩ ⟨-20, 0, 0, 0⟩
    ∧ fallbackBullet2 ∈ generate_fallback_bullets ⟨0, 0, 5, 2, 0, 5, -5⟩ ⟨-20, 0, 0, 0⟩
    ∧ fallbackBullet3 ∈ generate_fallback_bullets ⟨0, 0, 5, 2, 0, 5, -5⟩ ⟨-20, 0, 0, 0⟩
    ∧ generate_fallback ⟨0, 0, 5, 2, 0, 5, -5⟩ ⟨-20, 0, 0, 0⟩ [] ≠ "" := by
  refine ⟨?_, ?_, ?_, ?_⟩
  · exact (generate_fallback_spec ⟨0, 0, 5, 2, 0, 5, -5⟩ ⟨-20, 0, 0, 0⟩ []).2.2.2.2.2.1
      (by norm_num)
  · exact (generate_fallback_spec ⟨0, 0, 5, 2, 0, 5, -5⟩ ⟨-20, 0, 0, 0⟩ []).2.2.2.2.2.2.1
      (by norm_num)
  · exact (generate_fallback_spec ⟨0, 0, 5, 2, 0, 5, -5⟩ ⟨-20, 0, 0, 0⟩ []).2.2.2.2.2.2.2.1
      (by norm_num)
  · exact (generate_fallback_spec ⟨0, 0, 5, 2, 0, 5, -5⟩ ⟨-20, 0, 0, 0⟩ []).1

/-- C1: for every pair (current, previous) compared by the comparison
engine, the variation percentage equals ((current - previous) / previous)
* 100 when previous is nonzero; when previous = 0 the variation is 100.0
if current > 0 and 0.0 if current = 0. -/
theorem variation_percentage_spec (current previous : ℚ) :
    (previous ≠ 0 →
      calculate_variation_percentage current previous
        = ((current - previous) / previous) * 100)
    ∧ (previous = 0 → current > 0 →
      calculate_variation_percentage current previous = 100)
    ∧ (previous = 0 → current = 0 →
      calculate_variation_percentage current previous = 0) := by
  refine ⟨fun h => ?_, fun h hc => ?_, fun h hc => ?_⟩
  · simp [calculate_variation_percentage, h]
  · simp [calculate_variation_percentage, h, hc]
  · simp [calculate_variation_percentage, h, hc]

/-- Witness for C1 at concrete inputs: (150, 100) gives 50, (7, 0) gives
100, (0, 0) gives 0. -/
theorem variation_percentage_spec_witness :
    calculate_variation_percentage 150 100 = 50
    ∧ calculate_variation_percentage 7 0 = 100
    ∧ calculate_variation_percentage 0 0 = 0 := by
  refine ⟨?_, ?_, ?_⟩
  · have h := (variation_percentage_spec 150 100).1 (by norm_num)
    rw [h]; norm_num
  · exact (variation_percentage_spec 7 0).2.1 rfl (by norm_num)
  · exact (variation_percentage_spec 0 0).2.2 rfl rfl

/-- C2: the orchestrator's insight extraction returns exactly the insights
produced by the non-raising miners that returned a non-null insight (in
order), its length equals the count of miners returning non-null, and an
exception raised by one miner never removes or prevents insights
contributed by the other miners (deleting the raising entry leaves the
result unchanged). -/
theorem extract_insights_spec :
    (∀ rs : List MinerResult,
      extract_insights rs = rs.filterMap minedInsight)
    ∧ (∀ rs : List MinerResult,
      (extract_insights rs).length
        = rs.countP (fun r => (minedInsight r).isSome))
    ∧ (∀ (l r : List MinerResult) (e : Unit),
      extract_insights (l ++ Except.error e :: r) = extract_insights (l ++ r)) := by
  refine ⟨extract_insights_eq, ?_, ?_⟩
  · intro rs
    rw [extract_insights_eq]
    exact length_filterMap_minedInsight rs
  · intro l r e
    rw [extract_insights_eq, extract_insights_eq]
    simp [List.filterMap_append, List.filterMap_cons, minedInsight]

/-- C4: `ProfitMarginMiner.mine`, as a function of the (revenue, expenses)
pair with margin% = netResult/revenue·100, returns no insight when
revenue = 0; a priority-5 insight when margin < 0; a priority-4 insight when
0 ≤ margin < 10; a priority-2 insight with no financial impact when
margin > 40; and no insight when 10 ≤ margin ≤ 40. -/
theorem profit_margin_mine_spec (revenue expenses : ℚ) :
    (revenue = 0 → profitMarginMine revenue expenses = none)
    ∧ (revenue ≠ 0 → profit_margin revenue expenses < 0 →
      ∃ i, profitMarginMine revenue expenses = some i ∧ i.priority = 5)
    ∧ (revenue ≠ 0 → 0 ≤ profit_margin revenue expenses →
      profit_margin revenue expenses < 10 →
      ∃ i, profitMarginMine revenue expenses = some i ∧ i.priority = 4)
    ∧ (revenue ≠ 0 → 40 < profit_margin revenue expenses →
      ∃ i, profitMarginMine revenue expenses = some i ∧ i.priority = 2
        ∧ i.financial_impact = none)
    ∧ (revenue ≠ 0 → 10 ≤ profit_margin revenue expenses →
      profit_margin revenue expenses ≤ 40 →
      profitMarginMine revenue expenses = none) := by
  refine ⟨fun h => ?_, fun h hm => ?_, fun h h0 hm => ?_, fun h hm => ?_,
    fun h h10 h40 => ?_⟩
  · simp [profitMarginMine, h]
  · have heq : profitMarginMine revenue expenses = some
        { type := .profit_margin
          title := "🚨 Résultat Déficitaire"
          description := "Vos dépenses dépassent votre CA. Réduisez d'urgence vos charges."
          priority := 5
          financial_impact := some |revenue - expenses|
          actionable := true } := by
      rw [profitMarginMine]
      rw [if_neg h, if_pos hm]
    exact ⟨_, heq, rfl⟩
  · have heq : profitMarginMine revenue expenses = some
        { type := .profit_margin
          title := "⚠️ Rentabilité Faible"
          description := "Votre marge bénéficiaire est faible. Optimisez vos dépenses ou augmentez vos prix pour améliorer la rentabilité."
          priority := 4
          financial_impact := none
          actionable := true } := by
      rw [profitMarginMine]
      rw [if_neg h, if_neg (by linarith), if_pos hm]
    exact ⟨_, heq, rfl⟩
  · have heq : profitMarginMine revenue expenses = some
        { type := .profit_margin
          title := "🎉 Excellente Rentabilité"
          description := "Félicitations ! Profitez de cette santé financière pour investir dans la croissance."
          priority := 2
          financial_impact := none
          actionable := true } := by
      rw [profitMarginMine]
      rw [if_neg h, if_neg (by linarith), if_neg (by linarith), if_pos hm]
    exact ⟨_, heq, rfl, rfl⟩
  · rw [profitMarginMine]
    rw [if_neg h, if_neg (by linarith), if_neg (by linarith), if_neg (by linarith)]

/-- Witness for C4: revenue 1,000,000 with expenses 1,050,000 (margin −5%)
yields a priority-5 insight; margin 25% yields none; margin 45% yields a
priority-2 insight with no financial impact; revenue 0 yields none. -/
theorem profit_margin_mine_spec_witness :
    (∃ i, profitMarginMine 1000000 1050000 = some i ∧ i.priority = 5)
    ∧ profitMarginMine 1000000 750000 = none
    ∧ (∃ i, profitMarginMine 1000000 550000 = some i ∧ i.priority = 2
        ∧ i.financial_impact = none)
    ∧ profitMarginMine 0 1000 = none := by
  refine ⟨?_, ?_, ?_, ?_⟩
  · exact (profit_margin_mine_spec 1000000 1050000).2.1 (by norm_num)
      (by norm_num [profit_margin])
  · exact (profit_margin_mine_spec 1000000 750000).2.2.2.2 (by norm_num)
      (by norm_num [profit_margin]) (by norm_num [profit_margin])
  · exact (profit_margin_mine_spec 1000000 550000).2.2.2.1 (by norm_num)
      (by norm_num [profit_margin])
  · exact (profit_margin_mine_spec 0 1000).1 rfl

/-- C3: for every selector, list of insights and maxCount,
`select_top_insights` returns at most maxCount insights, each returned
insight is an element of the input list, and the returned sequence is
ordered by non-increasing composite score. -/
theorem select_top_insights_spec (s : InsightSelector) (l : List InsightModel)
    (n : ℕ) :
    (select_top_insights s l n).length ≤ n
    ∧ (∀ i ∈ select_top_insights s l n, i ∈ l)
    ∧ (select_top_insights s l n).Sorted (scoreGE s) := by
  haveI : IsTotal InsightModel (scoreGE s) :=
    ⟨fun a b => (le_total (calculate_score s b) (calculate_score s a)).imp id id⟩
  haveI : IsTrans InsightModel (scoreGE s) :=
    ⟨fun _ _ _ hab hbc => le_trans hbc hab⟩
  cases l with
  | nil => simp [select_top_insights]
  | cons a l' =>
    have hdef : select_top_insights s (a :: l') n
        = ((a :: l').insertionSort (scoreGE s)).take n := rfl
    rw [hdef]
    refine ⟨?_, ?_, ?_⟩
    · rw [List.length_take]
      exact min_le_left _ _
    · intro i hi
      have hi' : i ∈ (a :: l').insertionSort (scoreGE s) := List.take_subset _ _ hi
      exact (List.perm_insertionSort (scoreGE s) (a :: l')).mem_iff.mp hi'
    · exact List.Pairwise.sublist (List.take_sublist _ _)
        (List.sorted_insertionSort (scoreGE s) (a :: l'))

/-- Witness for C3 on a concrete two-insight list with maxCount 1: the
higher-scoring insight is selected and is an element of the input. -/
theorem select_top_insights_spec_witness :
    (select_top_insights defaultSelector [sampleInsightA, sampleInsightB] 1).length ≤ 1
    ∧ sampleInsightB ∈ [sampleInsightA, sampleInsightB] := by
  have hs : ¬ scoreGE defaultSelector sampleInsightA sampleInsightB := by
    norm_num [scoreGE, calculate_score, financial_component, sampleInsightA,
      sampleInsightB, defaultSelector_pw, defaultSelector_fw, defaultSelector_aw]
  refine ⟨(select_top_insights_spec defaultSelector _ 1).1, ?_⟩
  refine (select_top_insights_spec defaultSelector [sampleInsightA, sampleInsightB]
    1).2.1 sampleInsightB ?_
  simp [select_top_insights, List.insertionSort, List.orderedInsert, hs]

/-- C6: with the default renormalized weights (40/30/30), the composite
score is monotone in priority, in financial impact (with equality above
the 1,000,000 cap), and in the actionable flag, each holding the other
two fields fixed. -/
theorem calculate_score_monotone (i j : InsightModel) :
    (i.financial_impact = j.financial_impact → i.actionable = j.actionable →
      i.priority ≤ j.priority →
      calculate_score defaultSelector i ≤ calculate_score defaultSelector j)
    ∧ (∀ v w : ℚ, i.priority = j.priority → i.actionable = j.actionable →
      i.financial_impact = some v → j.financial_impact = some w → v ≤ w →
      calculate_score defaultSelector i ≤ calculate_score defaultSelector j)
    ∧ (∀ v w : ℚ, i.priority = j.priority → i.actionable = j.actionable →
      i.financial_impact = some v → j.financial_impact = some w →
      1000000 ≤ v → v ≤ w →
      calculate_score defaultSelector i = calculate_score defaultSelector j)
    ∧ (i.priority = j.priority → i.financial_impact = j.financial_impact →
      i.actionable = false → j.actionable = true →
      calculate_score defaultSelector i ≤ calculate_score defaultSelector j) := by
  refine ⟨fun hf ha hp => ?_, fun v w hp ha hfi hfj hvw => ?_,
    fun v w hp ha hfi hfj hcap hvw => ?_, fun hp hf hai haj => ?_⟩
  · rw [calculate_score, calculate_score, hf, ha, defaultSelector_pw]
    have : ((i.priority : ℚ) / 5) * 40 ≤ ((j.priority : ℚ) / 5) * 40 := by
      have : (i.priority : ℚ) ≤ (j.priority : ℚ) := by exact_mod_cast hp
      linarith
    linarith
  · rw [calculate_score, calculate_score, hp, ha, hfi, hfj]
    have := financial_component_mono v w hvw
    linarith
  · rw [calculate_score, calculate_score, hp, ha, hfi, hfj]
    have hv : financial_component defaultSelector (some v) = 30 := by
      rw [financial_component, defaultSelector_fw,
        if_neg (by intro h0; rw [h0] at hcap; norm_num at hcap),
        min_eq_right (by nlinarith)]
      norm_num
    have hw : financial_component defaultSelector (some w) = 30 := by
      rw [financial_component, defaultSelector_fw,
        if_neg (by intro h0; rw [h0] at hvw; linarith),
        min_eq_right (by nlinarith)]
      norm_num
    rw [hv, hw]
  · rw [calculate_score, calculate_score, hp, hf, hai, haj, defaultSelector_aw]
    norm_num

/-- Witness for C6 at concrete insight pairs exercising each conjunct. -/
theorem calculate_score_monotone_witness :
    (calculate_score defaultSelector ⟨.stock_alert, "a", "d", 2, none, true⟩
      ≤ calculate_score defaultSelector ⟨.stock_alert, "a", "d", 4, none, true⟩)
    ∧ (calculate_score defaultSelector ⟨.stock_alert, "a", "d", 3, some 100, true⟩
      ≤ calculate_score defaultSelector ⟨.stock_alert, "a", "d", 3, some 200, true⟩)
    ∧ (calculate_score defaultSelector ⟨.stock_alert, "a", "d", 3, some 2000000, true⟩
      = calculate_score defaultSelector ⟨.stock_alert, "a", "d", 3, some 3000000, true⟩)
    ∧ (calculate_score defaultSelector ⟨.stock_alert, "a", "d", 3, none, false⟩
      ≤ calculate_score defaultSelector ⟨.stock_alert, "a", "d", 3, none, true⟩) := by
  refine ⟨?_, ?_, ?_, ?_⟩
  · exact (calculate_score_monotone ⟨.stock_alert, "a", "d", 2, none, true⟩
      ⟨.stock_alert, "a", "d", 4, none, true⟩).1 rfl rfl (by norm_num)
  · exact (calculate_score_monotone ⟨.stock_alert, "a", "d", 3, some 100, true⟩
      ⟨.stock_alert, "a", "d", 3, some 200, true⟩).2.1 100 200 rfl rfl rfl rfl
      (by norm_num)
  · exact (calculate_score_monotone ⟨.stock_alert, "a", "d", 3, some 2000000, true⟩
      ⟨.stock_alert, "a", "d", 3, some 3000000, true⟩).2.2.1 2000000 3000000
      rfl rfl rfl rfl (by norm_num) (by norm_num)
  · exact (calculate_score_monotone ⟨.stock_alert, "a", "d", 3, none, false⟩
      ⟨.stock_alert, "a", "d", 3, none, true⟩).2.2.2 rfl rfl rfl rfl

/-! ### Helper lemmas for C5 (Gregorian calendar arithmetic) -/

lemma daysBeforeYear_succ (y : ℕ) (hy : 1 ≤ y) :
    daysBeforeYear (y + 1) = daysBeforeYear y + (if isLeapYear y then 366 else 365) := by
  obtain ⟨n, rfl⟩ : ∃ n, y = n + 1 := ⟨y - 1, by omega⟩
  by_cases d400 : 400 ∣ (n + 1)
  · have d100 : 100 ∣ (n + 1) := dvd_trans (by norm_num) d400
    have d4 : 4 ∣ (n + 1) := dvd_trans (by norm_num) d400
    have hm400 : (n + 1) % 400 = 0 := by omega
    have hleap : isLeapYear (n + 1) = true := by
      simp [isLeapYear, hm400]
    have e4 : (n + 1) / 4 = n / 4 + 1 := by omega
    have e100 : (n + 1) / 100 = n / 100 + 1 := by omega
    have e400 : (n + 1) / 400 = n / 400 + 1 := by omega
    rw [hleap]
    unfold daysBeforeYear
    simp only [Nat.add_sub_cancel]
    rw [e4, e100, e400]
    push_cast
    ring
  · by_cases d100 : 100 ∣ (n + 1)
    · have d4 : 4 ∣ (n + 1) := dvd_trans (by norm_num) d100
      have hm4 : (n + 1) % 4 = 0 := by omega
      have hm100 : (n + 1) % 100 = 0 := by omega
      have hm400 : (n + 1) % 400 ≠ 0 := by omega
      have hleap : isLeapYear (n + 1) = false := by
        simp [isLeapYear, hm4, hm100, hm400]
      have e4 : (n + 1) / 4 = n / 4 + 1 := by omega
      have e100 : (n + 1) / 100 = n / 100 + 1 := by omega
      have e400 : (n + 1) / 400 = n / 400 := by omega
      rw [hleap]
      unfold daysBeforeYear
      simp only [Nat.add_sub_cancel]
      rw [e4, e100, e400]
      push_cast
      ring
    · by_cases d4 : 4 ∣ (n + 1)
      · have hm4 : (n + 1) % 4 = 0 := by omega
        have hm100 : (n + 1) % 100 ≠ 0 := by omega
        have hleap : isLeapYear (n + 1) = true := by
          simp [isLeapYear, hm4, hm100]
        have e4 : (n + 1) / 4 = n / 4 + 1 := by omega
        have e100 : (n + 1) / 100 = n / 100 := by omega
        have e400 : (n + 1) / 400 = n / 400 := by omega
        rw [hleap]
        unfold daysBeforeYear
        simp only [Nat.add_sub_cancel]
        rw [e4, e100, e400]
        push_cast
        ring
      · have d100' : ¬ 100 ∣ (n + 1) := fun h => d4 (dvd_trans (by norm_num) h)
        have d400' : ¬ 400 ∣ (n + 1) := fun h => d4 (dvd_trans (by norm_num) h)
        have hm4 : (n + 1) % 4 ≠ 0 := by omega
        have hm400 : (n + 1) % 400 ≠ 0 := by omega
        have hleap : isLeapYear (n + 1) = false := by
          simp [isLeapYear, hm4, hm400]
        have e4 : (n + 1) / 4 = n / 4 := by omega
        have e100 : (n + 1) / 100 = n / 100 := by omega
        have e400 : (n + 1) / 400 = n / 400 := by omega
        rw [hleap]
        unfold daysBeforeYear
        simp only [Nat.add_sub_cancel]
        rw [e4, e100, e400]
        push_cast
        ring

lemma daysInMonth_pos (y m : ℕ) : 1 ≤ daysInMonth y m := by
  unfold daysInMonth
  split <;> first | omega | (split <;> omega)

lemma daysBeforeMonth_succ (y m : ℕ) (hm : 1 ≤ m) :
    daysBeforeMonth y (m + 1) = daysBeforeMonth y m + daysInMonth y m := by
  obtain ⟨k, rfl⟩ : ∃ k, m = k + 1 := ⟨m - 1, by omega⟩
  unfold daysBeforeMonth
  simp only [Nat.add_sub_cancel]
  rw [List.range_succ, List.map_append, List.sum_append]
  simp

lemma daysBeforeMonth_one (y : ℕ) : daysBeforeMonth y 1 = 0 := rfl

lemma daysBeforeMonth_year (y : ℕ) :
    (daysBeforeMonth y 12 : ℤ) + 31 = if isLeapYear y then 366 else 365 := by
  cases h : isLeapYear y <;>
    simp [daysBeforeMonth, daysInMonth, h, List.range_succ]

lemma toOrdinal_min : toOrdinal ⟨1, 1, 1⟩ = 1 := by decide

lemma toOrdinal_predDate (d : Date) (hd : ValidDate d) (hmin : d ≠ ⟨1, 1, 1⟩) :
    toOrdinal (predDate d) = toOrdinal d - 1 := by
  obtain ⟨hy, hm1, hm2, hd1, hd2⟩ := hd
  rw [predDate]
  split_ifs with h1 h2
  · simp only [toOrdinal]
    omega
  · -- day = 1, month ≥ 2
    have hm : 2 ≤ d.month := by omega
    have hrec : daysBeforeMonth d.year d.month
        = daysBeforeMonth d.year (d.month - 1) + daysInMonth d.year (d.month - 1) := by
      have := daysBeforeMonth_succ d.year (d.month - 1) (by omega)
      rwa [show d.month - 1 + 1 = d.month by omega] at this
    simp only [toOrdinal]
    omega
  · -- day = 1, month = 1, so year ≥ 2
    have hmo : d.month = 1 := by omega
    have hda : d.day = 1 := by omega
    have hy2 : 2 ≤ d.year := by
      by_contra hcon
      have : d.year = 1 := by omega
      exact hmin (by cases d; simp_all)
    have hstep := daysBeforeYear_succ (d.year - 1) (by omega)
    rw [show d.year - 1 + 1 = d.year by omega] at hstep
    have hyr := daysBeforeMonth_year (d.year - 1)
    simp only [toOrdinal, hmo, hda, daysBeforeMonth_one]
    omega

lemma validDate_pred (d : Date) (hd : ValidDate d) (hmin : d ≠ ⟨1, 1, 1⟩) :
    ValidDate (predDate d) := by
  obtain ⟨hy, hm1, hm2, hd1, hd2⟩ := hd
  rw [predDate]
  split_ifs with h1 h2
  · refine ⟨hy, hm1, hm2, ?_, ?_⟩
    · show 1 ≤ d.day - 1
      omega
    · show d.day - 1 ≤ daysInMonth d.year d.month
      omega
  · refine ⟨hy, ?_, ?_, ?_, ?_⟩
    · show 1 ≤ d.month - 1
      omega
    · show d.month - 1 ≤ 12
      omega
    · show 1 ≤ daysInMonth d.year (d.month - 1)
      exact daysInMonth_pos _ _
    · show daysInMonth d.year (d.month - 1) ≤ daysInMonth d.year (d.month - 1)
      exact le_rfl
  · have hy2 : 2 ≤ d.year := by
      by_contra hcon
      have hmo : d.month = 1 := by omega
      have hda : d.day = 1 := by omega
      have : d.year = 1 := by omega
      exact hmin (by cases d; simp_all)
    refine ⟨?_, ?_, ?_, ?_, ?_⟩
    · show 1 ≤ d.year - 1
      omega
    · show (1 : ℕ) ≤ 12
      omega
    · show (12 : ℕ) ≤ 12
      omega
    · show (1 : ℕ) ≤ 31
      omega
    · show (31 : ℕ) ≤ daysInMonth (d.year - 1) 12
      rfl

lemma subDays_spec (n : ℕ) : ∀ d : Date, ValidDate d → (n : ℤ) + 1 ≤ toOrdinal d →
    ValidDate (subDays d n) ∧ toOrdinal (subDays d n) = toOrdinal d - n := by
  induction n with
  | zero => intro d hd _; exact ⟨hd, by simp [subDays]⟩
  | succ k ih =>
    intro d hd hord
    rw [subDays]
    have hmin : d ≠ ⟨1, 1, 1⟩ := by
      intro h
      rw [h, toOrdinal_min] at hord
      push_cast at hord
      omega
    have h1 := toOrdinal_predDate d hd hmin
    have h2 := validDate_pred d hd hmin
    have h3 : (k : ℤ) + 1 ≤ toOrdinal (predDate d) := by
      rw [h1]
      push_cast at hord ⊢
      omega
    obtain ⟨hv, ho⟩ := ih (predDate d) h2 h3
    refine ⟨hv, ?_⟩
    rw [ho, h1]
    push_cast
    ring

lemma quarter_month_cases (m : ℕ) (h1 : 1 ≤ m) (h2 : m ≤ 12) :
    ((m - 1) / 3) * 3 + 1 = 1 ∨ ((m - 1) / 3) * 3 + 1 = 4
      ∨ ((m - 1) / 3) * 3 + 1 = 7 ∨ ((m - 1) / 3) * 3 + 1 = 10 := by
  omega

/-- C5: period resolution.  Weekly: end = asOf, start = asOf − 6 days,
so the window spans exactly 7 days.  Monthly: start is the first day of
asOf's month.  Quarterly: start is day 1 of month ((month−1)/3)·3+1, which
lies in {1, 4, 7, 10}.  Previous window: same length in days, ending on
the day before start.  Hypotheses keep every produced date at or above
0001-01-01, where `datetime.date` itself is defined. -/
theorem period_dates_spec :
    (∀ d : Date, ValidDate d → (7 : ℤ) ≤ toOrdinal d →
      (calculate_period_dates .weekly d).2 = d
      ∧ (calculate_period_dates .weekly d).1 = subDays d 6
      ∧ ValidDate (calculate_period_dates .weekly d).1
      ∧ toOrdinal (calculate_period_dates .weekly d).1 = toOrdinal d - 6
      ∧ toOrdinal (calculate_period_dates .weekly d).2
          - toOrdinal (calculate_period_dates .weekly d).1 + 1 = 7)
    ∧ (∀ d : Date, ValidDate d →
      (calculate_period_dates .monthly d).2 = d
      ∧ (calculate_period_dates .monthly d).1 = ⟨d.year, d.month, 1⟩
      ∧ ValidDate (calculate_period_dates .monthly d).1)
    ∧ (∀ d : Date, ValidDate d →
      (calculate_period_dates .quarterly d).2 = d
      ∧ (calculate_period_dates .quarterly d).1
          = ⟨d.year, ((d.month - 1) / 3) * 3 + 1, 1⟩
      ∧ ((calculate_period_dates .quarterly d).1.month = 1
        ∨ (calculate_period_dates .quarterly d).1.month = 4
        ∨ (calculate_period_dates .quarterly d).1.month = 7
        ∨ (calculate_period_dates .quarterly d).1.month = 10)
      ∧ ValidDate (calculate_period_dates .quarterly d).1)
    ∧ (∀ s e : Date, ValidDate s →
      toOrdinal s ≤ toOrdinal e →
      toOrdinal e - toOrdinal s + 2 ≤ toOrdinal s →
      toOrdinal (calculate_previous_period_dates s e).2 = toOrdinal s - 1
      ∧ toOrdinal (calculate_previous_period_dates s e).2
          - toOrdinal (calculate_previous_period_dates s e).1
          = toOrdinal e - toOrdinal s
      ∧ ValidDate (calculate_previous_period_dates s e).1
      ∧ ValidDate (calculate_previous_period_dates s e).2) := by
  refine ⟨fun d hd h7 => ?_, fun d hd => ?_, fun d hd => ?_, fun s e hs hse hroom => ?_⟩
  · obtain ⟨hv, ho⟩ := subDays_spec 6 d hd (by push_cast; omega)
    push_cast at ho
    simp only [calculate_period_dates]
    exact ⟨trivial, trivial, hv, ho, by rw [ho]; ring⟩
  · obtain ⟨hy, hm1, hm2, hd1, hd2⟩ := hd
    simp only [calculate_period_dates]
    exact ⟨trivial, trivial, hy, hm1, hm2, le_rfl, daysInMonth_pos _ _⟩
  · obtain ⟨hy, hm1, hm2, hd1, hd2⟩ := hd
    simp only [calculate_period_dates]
    refine ⟨trivial, trivial, ?_, ?_⟩
    · exact quarter_month_cases d.month hm1 hm2
    · refine ⟨hy, ?_, ?_, ?_, ?_⟩
      · show 1 ≤ (d.month - 1) / 3 * 3 + 1
        omega
      · show (d.month - 1) / 3 * 3 + 1 ≤ 12
        omega
      · show (1 : ℕ) ≤ 1
        omega
      · show (1 : ℕ) ≤ daysInMonth d.year ((d.month - 1) / 3 * 3 + 1)
        exact daysInMonth_pos _ _
  · have htn : (((toOrdinal e - toOrdinal s).toNat : ℕ) : ℤ)
        = toOrdinal e - toOrdinal s := Int.toNat_of_nonneg (by omega)
    obtain ⟨hv1, ho1⟩ := subDays_spec 1 s hs (by push_cast; omega)
    push_cast at ho1
    obtain ⟨hv2, ho2⟩ := subDays_spec (toOrdinal e - toOrdinal s).toNat
      (subDays s 1) hv1 (by rw [ho1, htn]; omega)
    rw [htn] at ho2
    simp only [calculate_previous_period_dates, Nat.add_sub_cancel]
    exact ⟨ho1, by omega, hv2, hv1⟩

/-- Witness for C5: monthly(2025-07-31) = (2025-07-01, 2025-07-31);
weekly at 2025-07-31 spans 7 days; the 2025-07-31 quarter starts in month
7; the previous window of July 2025 ends on 2025-06-30 and has the same
31-day length. -/
theorem period_dates_spec_witness :
    ((calculate_period_dates .monthly ⟨2025, 7, 31⟩).1 = ⟨2025, 7, 1⟩
      ∧ (calculate_period_dates .monthly ⟨2025, 7, 31⟩).2 = ⟨2025, 7, 31⟩)
    ∧ toOrdinal (calculate_period_dates .weekly ⟨2025, 7, 31⟩).2
        - toOrdinal (calculate_period_dates .weekly ⟨2025, 7, 31⟩).1 + 1 = 7
    ∧ ((calculate_period_dates .quarterly ⟨2025, 7, 31⟩).1.month = 1
      ∨ (calculate_period_dates .quarterly ⟨2025, 7, 31⟩).1.month = 4
      ∨ (calculate_period_dates .quarterly ⟨2025, 7, 31⟩).1.month = 7
      ∨ (calculate_period_dates .quarterly ⟨2025, 7, 31⟩).1.month = 10)
    ∧ toOrdinal (calculate_previous_period_dates ⟨2025, 7, 1⟩ ⟨2025, 7, 31⟩).2
        = toOrdinal ⟨2025, 7, 1⟩ - 1
    ∧ toOrdinal (calculate_previous_period_dates ⟨2025, 7, 1⟩ ⟨2025, 7, 31⟩).2
        - toOrdinal (calculate_previous_period_dates ⟨2025, 7, 1⟩ ⟨2025, 7, 31⟩).1
        = toOrdinal ⟨2025, 7, 31⟩ - toOrdinal ⟨2025, 7, 1⟩ := by
  obtain ⟨hm1, hm2, _⟩ := period_dates_spec.2.1 ⟨2025, 7, 31⟩ (by decide)
  obtain ⟨_, _, _, _, hw⟩ := period_dates_spec.1 ⟨2025, 7, 31⟩ (by decide) (by decide)
  obtain ⟨_, _, hq, _⟩ := period_dates_spec.2.2.1 ⟨2025, 7, 31⟩ (by decide)
  obtain ⟨hp1, hp2, _, _⟩ := period_dates_spec.2.2.2 ⟨2025, 7, 1⟩ ⟨2025, 7, 31⟩
    (by decide) (by decide) (by decide)
  exact ⟨⟨hm2, hm1⟩, hw, hq, hp1, hp2⟩

/-- C8: `is_duplicate` returns false on the first call in the TTL window
(the set-if-absent succeeds and stamps the key), true on every later call
with the same task name and key while the entry is unexpired, false again
once the entry has expired, and false whenever the store operation raised
(fail open, state untouched). -/
theorem is_duplicate_spec (st : IdemStore) (now : ℕ) (task key : String)
    (ttl : ℕ) :
    (storeLive st now (make_key task key) = false →
      (is_duplicate st now task key ttl).1 = false
      ∧ (∀ now', now' < now + ttl →
          (is_duplicate (is_duplicate st now task key ttl).2 now' task key ttl).1
            = true)
      ∧ (∀ now'', now + ttl ≤ now'' →
          (is_duplicate (is_duplicate st now task key ttl).2 now'' task key ttl).1
            = false))
    ∧ (∀ e : Unit, is_duplicateE (.error e) st = (false, st)) := by
  refine ⟨fun hfree => ?_, fun e => rfl⟩
  have hfirst : is_duplicate st now task key ttl
      = (false, (make_key task key, now + ttl) :: st) := by
    rw [is_duplicate, redisSetNX, hfree]
    rfl
  refine ⟨by rw [hfirst], fun now' hlt => ?_, fun now'' hge => ?_⟩
  · rw [hfirst]
    have hlive : storeLive ((make_key task key, now + ttl) :: st) now'
        (make_key task key) = true := by
      simp [storeLive, List.lookup, hlt]
    rw [is_duplicate, redisSetNX, hlive]
    rfl
  · rw [hfirst]
    have hdead : storeLive ((make_key task key, now + ttl) :: st) now''
        (make_key task key) = false := by
      simp [storeLive, List.lookup]
      omega
    rw [is_duplicate, redisSetNX, hdead]
    rfl

/-- Witness for C8: first call not duplicate, repeat at time 5 within
TTL 10 is duplicate, call at expiry time 10 is not, and an erroring store
yields false without touching the state. -/
theorem is_duplicate_spec_witness :
    (is_duplicate [] 0 "generate_report" "abc" 10).1 = false
    ∧ (is_duplicate (is_duplicate [] 0 "generate_report" "abc" 10).2 5
        "generate_report" "abc" 10).1 = true
    ∧ (is_duplicate (is_duplicate [] 0 "generate_report" "abc" 10).2 10
        "generate_report" "abc" 10).1 = false
    ∧ is_duplicateE (.error ()) ([("x", 3)] : IdemStore) = (false, [("x", 3)]) := by
  obtain ⟨h1, h2, h3⟩ :=
    (is_duplicate_spec [] 0 "generate_report" "abc" 10).1 (by decide)
  exact ⟨h1, h2 5 (by decide), h3 10 (by decide),
    (is_duplicate_spec [("x", 3)] 0 "t" "k" 1).2 ()⟩

/-! ### Helper lemmas for C9 -/

lemma rlIter_state (cfg : RLConfig) (t0 : ℕ)
    (hh : cfg.requests_per_minute ≤ cfg.requests_per_hour) :
    ∀ k, k ≤ cfg.requests_per_minute → 0 < k →
      rlIter cfg t0 k = ⟨some (k, t0 + 60), some (k, t0 + 3600), none⟩ := by
  intro k
  induction k with
  | zero => intro _ h0; exact absurd h0 (lt_irrefl 0)
  | succ n ih =>
    intro hk _
    rw [rlIter]
    cases n with
    | zero =>
      have hcap : 1 ≤ cfg.requests_per_minute := hk
      have h3 : ¬ (1 > cfg.requests_per_minute) := by omega
      have h4 : ¬ (1 > cfg.requests_per_hour) := by omega
      rw [show rlIter cfg t0 0 = emptyRLState from rfl]
      simp [check_rate_limit, emptyRLState, blockLive, redisIncr, h3, h4]
    | succ m =>
      rw [ih (Nat.le_of_succ_le hk) (Nat.succ_pos m)]
      have h1 : t0 < t0 + 60 := by omega
      have h2 : t0 < t0 + 3600 := by omega
      have h3 : ¬ (m + 1 + 1 > cfg.requests_per_minute) := by omega
      have h4 : ¬ (m + 1 + 1 > cfg.requests_per_hour) := by omega
      simp [check_rate_limit, blockLive, redisIncr, h1, h2, h3, h4]

lemma rlIter_allowed (cfg : RLConfig) (t0 : ℕ)
    (hh : cfg.requests_per_minute ≤ cfg.requests_per_hour) :
    ∀ k < cfg.requests_per_minute,
      (check_rate_limit cfg (rlIter cfg t0 k) t0).1 = .allowed := by
  intro k hk
  cases k with
  | zero =>
    have h3 : ¬ (1 > cfg.requests_per_minute) := by omega
    have h4 : ¬ (1 > cfg.requests_per_hour) := by omega
    rw [show rlIter cfg t0 0 = emptyRLState from rfl]
    simp [check_rate_limit, emptyRLState, blockLive, redisIncr, h3, h4]
  | succ n =>
    rw [rlIter_state cfg t0 hh (n + 1) (Nat.le_of_lt hk) (Nat.succ_pos n)]
    have h1 : t0 < t0 + 60 := by omega
    have h2 : t0 < t0 + 3600 := by omega
    have h3 : ¬ (n + 1 + 1 > cfg.requests_per_minute) := by omega
    have h4 : ¬ (n + 1 + 1 > cfg.requests_per_hour) := by omega
    simp [check_rate_limit, blockLive, redisIncr, h1, h2, h3, h4]

/-- C9: viewing `check_rate_limit` as a step relation on the per-client
counter/block state: starting from the empty state, the first cap requests
inside one minute window are allowed and the (cap+1)-th is rejected with
the temporary block entry set; any request arriving while the block entry
is live is rejected regardless of the counter values; and exceeding the
hourly cap rejects without setting the block entry. -/
theorem rate_limiter_spec (cfg : RLConfig) :
    (∀ t0 : ℕ, 0 < cfg.requests_per_minute →
      cfg.requests_per_minute ≤ cfg.requests_per_hour →
      (∀ k < cfg.requests_per_minute,
        (check_rate_limit cfg (rlIter cfg t0 k) t0).1 = .allowed)
      ∧ (check_rate_limit cfg (rlIter cfg t0 cfg.requests_per_minute) t0).1
          = .minuteReject
      ∧ (check_rate_limit cfg (rlIter cfg t0 cfg.requests_per_minute) t0).2.block
          = some (t0 + cfg.block_duration_seconds))
    ∧ (∀ (st : RLState) (now : ℕ), blockLive st.block now = true →
        check_rate_limit cfg st now = (.blockedReject, st))
    ∧ (∀ (st : RLState) (now : ℕ), blockLive st.block now = false →
        (redisIncr st.minute now 60).1 ≤ cfg.requests_per_minute →
        (redisIncr st.hour now 3600).1 > cfg.requests_per_hour →
        (check_rate_limit cfg st now).1 = .hourReject
        ∧ (check_rate_limit cfg st now).2.block = st.block) := by
  refine ⟨fun t0 hcap hh => ?_, fun st now hb => ?_, fun st now hb hm hhr => ?_⟩
  · have h1 : t0 < t0 + 60 := by omega
    have h2 : t0 < t0 + 3600 := by omega
    have h3 : cfg.requests_per_minute + 1 > cfg.requests_per_minute := by omega
    refine ⟨rlIter_allowed cfg t0 hh, ?_, ?_⟩
    · rw [rlIter_state cfg t0 hh cfg.requests_per_minute le_rfl hcap]
      simp [check_rate_limit, blockLive, redisIncr, h1, h2, h3]
    · rw [rlIter_state cfg t0 hh cfg.requests_per_minute le_rfl hcap]
      simp [check_rate_limit, blockLive, redisIncr, h1, h2, h3]
  · simp [check_rate_limit, hb]
  · have h1 : ¬ ((redisIncr st.minute now 60).1 > cfg.requests_per_minute) := by
      omega
    constructor
    · simp [check_rate_limit, hb, h1, hhr]
    · simp [check_rate_limit, hb, h1, hhr]

/-- Witness for C9 with caps 2/minute and 10/hour: requests 1–2 at t=0
are allowed, request 3 is rejected and blocks until t=300; a blocked
client is rejected; an over-hour-cap state is rejected without blocking. -/
theorem rate_limiter_spec_witness :
    (check_rate_limit ⟨2, 10, 300⟩ (rlIter ⟨2, 10, 300⟩ 0 1) 0).1 = .allowed
    ∧ (check_rate_limit ⟨2, 10, 300⟩ (rlIter ⟨2, 10, 300⟩ 0 2) 0).1 = .minuteReject
    ∧ (check_rate_limit ⟨2, 10, 300⟩ (rlIter ⟨2, 10, 300⟩ 0 2) 0).2.block = some 300
    ∧ check_rate_limit ⟨2, 10, 300⟩ ⟨none, none, some 5⟩ 0
        = (.blockedReject, ⟨none, none, some 5⟩)
    ∧ (check_rate_limit ⟨2, 10, 300⟩ ⟨none, some (10, 100), none⟩ 0).1 = .hourReject
    ∧ (check_rate_limit ⟨2, 10, 300⟩ ⟨none, some (10, 100), none⟩ 0).2.block = none := by
  obtain ⟨ha, hb, hc⟩ :=
    (rate_limiter_spec ⟨2, 10, 300⟩).1 0 (by decide) (by decide)
  obtain ⟨hd, he⟩ := (rate_limiter_spec ⟨2, 10, 300⟩).2.2
    ⟨none, some (10, 100), none⟩ 0 (by decide) (by decide) (by decide)
  exact ⟨ha 1 (by decide), hb, hc,
    (rate_limiter_spec ⟨2, 10, 300⟩).2.1 ⟨none, none, some 5⟩ 0 (by decide),
    hd, he⟩

end Reporting
